import Mathlib

/-!
Shallow embedding of the client-side song-recommendation scripts: the
behavior-tracking operations, the scoring heuristic `recommendSong` (both the
overlay variant and the sliding-card variant), the random fallback
`pickRandomSong`, and the interaction gating of `triggerRecommendation`.

JS objects keyed by strings iterate in insertion order; every mapping is
modelled as an association list kept in insertion order with unique keys.
JS numbers are modelled as `Int` (all values involved are integers).
DOM access, storage serialization and the card UI are outside the model; the
single random draw of the fallback paths is passed in as a parameter.
-/

/-- A song record from the in-page catalog (`songs`). Genre and
spiritual-need tags are stored as comma-separated strings, exactly as in the
source data. -/
structure Song where
  title : String
  genres : String
  spiritualNeeds : String
  pageUrl : String
  deriving Repr, DecidableEq

/-- The per-session behavior record: visit counts, click counts and dwell
seconds, each keyed by page path or song title. -/
structure BehaviorRecord where
  pagesVisited : List (String × Int)
  clicks : List (String × Int)
  timeSpent : List (String × Int)
  deriving Repr, DecidableEq

/-- Ephemeral score mapping (`genreScores` / `needScores`): tag to
accumulated weight, in first-insertion order. -/
abbrev ScoreMap := List (String × Int)

/-- Read `m[k]` with the JS `|| 0` default: the value of the first entry with
key `k`, and 0 when the key is absent. -/
def lookupD (m : ScoreMap) (k : String) : Int :=
  match m with
  | [] => 0
  | (k', v) :: rest => if k' = k then v else lookupD rest k

/-- Read `m[k]` as an optional value (absent versus present). -/
def lookupOpt (m : ScoreMap) (k : String) : Option Int :=
  match m with
  | [] => none
  | (k', v) :: rest => if k' = k then some v else lookupOpt rest k

/-- Write `m[k] = v` on a JS object: overwrite the entry when the key is
present, append it otherwise. -/
def setVal (m : ScoreMap) (k : String) (v : Int) : ScoreMap :=
  match m with
  | [] => [(k, v)]
  | (k', v') :: rest => if k' = k then (k', v) :: rest else (k', v') :: setVal rest k v

/-- The accumulation pattern `m[k] = (m[k] || 0) + v` used by every score
update of the scorer. -/
def addScore (m : ScoreMap) (k : String) (v : Int) : ScoreMap :=
  match m with
  | [] => [(k, v)]
  | (k', v') :: rest => if k' = k then (k', v' + v) :: rest else (k', v') :: addScore rest k v

/-- `split(",")` on a character list: maximal runs between commas, one (empty)
run more than there are commas — `"".split(",")` is `[""]`, like JS. -/
def splitOnComma : List Char → List (List Char)
  | [] => [[]]
  | c :: rest =>
    if c = ',' then [] :: splitOnComma rest
    else
      match splitOnComma rest with
      | [] => [[c]]
      | t :: ts => (c :: t) :: ts

/-- `trim()`: drop leading and trailing whitespace characters. -/
def trimChars (cs : List Char) : List Char :=
  ((cs.dropWhile Char.isWhitespace).reverse.dropWhile Char.isWhitespace).reverse

/-- `s.toLowerCase().split(",").map(t => t.trim())`, the tag-list decoding
applied to both `genres` and `spiritualNeeds` (lowercasing is per character;
the comma separator is unaffected by case). -/
def tagList (s : String) : List String :=
  (splitOnComma (s.data.map Char.toLower)).map (fun cs => String.mk (trimChars cs))

/-- `songs.filter(song => song.pageUrl)`: a song is published iff its page
URL is set (a non-empty string, by JS truthiness). -/
def publishedOf (songs : List Song) : List Song :=
  songs.filter (fun s => s.pageUrl != "")

/-- One iteration of the clicks loop of `recommendSong`: resolve the clicked
title against the published songs; on a hit add `count * 2` to each genre tag
and `count` to each need tag. -/
def clickStep (publishedSongs : List Song) (acc : ScoreMap × ScoreMap)
    (e : String × Int) : ScoreMap × ScoreMap :=
  match publishedSongs.find? (fun s => s.title == e.1) with
  | none => acc
  | some song =>
    ((tagList song.genres).foldl (fun m g => addScore m g (e.2 * 2)) acc.1,
     (tagList song.spiritualNeeds).foldl (fun m n => addScore m n e.2) acc.2)

/-- The whole clicks loop of `recommendSong`, building the first stage of
`genreScores` together with all of `needScores`. -/
def clickScores (publishedSongs : List Song) (clicks : List (String × Int)) :
    ScoreMap × ScoreMap :=
  clicks.foldl (clickStep publishedSongs) ([], [])

/-- The genre occurrences of the published songs whose URL matches `page`.
The comparison `urlMatch songUrl page` abstracts the source's origin-dependent
check (`new URL(song.pageUrl, origin).href === origin + page ||
song.pageUrl === page`); the overlay variant uses plain string equality. -/
def pageGenresOf (urlMatch : String → String → Bool) (publishedSongs : List Song)
    (page : String) : List String :=
  ((publishedSongs.filter (fun s => urlMatch s.pageUrl page)).map
    (fun s => tagList s.genres)).flatten

/-- One iteration of the time-spent loop: every genre occurrence on the songs
matching the page gains `Math.floor(seconds / 60)` (floor division). -/
def timeStep (urlMatch : String → String → Bool) (publishedSongs : List Song)
    (gs : ScoreMap) (e : String × Int) : ScoreMap :=
  (pageGenresOf urlMatch publishedSongs e.1).foldl
    (fun m g => addScore m g (Int.fdiv e.2 60)) gs

/-- `needScores` after the clicks loop (the later passes touch only
`genreScores`). -/
def needScoresOf (publishedSongs : List Song) (clicks : List (String × Int)) : ScoreMap :=
  (clickScores publishedSongs clicks).2

/-- `genreScores` after the three scoring passes of `recommendSong`: clicks,
time spent, and the flat `+3` for each current-page genre. -/
def genreScoresOf (urlMatch : String → String → Bool) (publishedSongs : List Song)
    (behavior : BehaviorRecord) (currentPageGenres : List String) : ScoreMap :=
  currentPageGenres.foldl (fun m g => addScore m g 3)
    (behavior.timeSpent.foldl (timeStep urlMatch publishedSongs)
      (clickScores publishedSongs behavior.clicks).1)

/-- The top-genre loop: starting from `finalTopGenre = null` and
`highestGenreScore = -1`, adopt each genre whose score strictly exceeds the
running best. -/
def topGenre (gs : ScoreMap) : Option String :=
  (gs.foldl (fun acc p => if p.2 > acc.2 then (some p.1, p.2) else acc)
    ((none : Option String), (-1 : Int))).1

/-- The published songs whose genre-tag list contains the top genre. -/
def matchingSongsOf (publishedSongs : List Song) (g : String) : List Song :=
  publishedSongs.filter (fun s => (tagList s.genres).contains g)

/-- The candidate total of the best-song loop: the sum of `genreScores` over
the song's genre tags plus the sum of `needScores` over its need tags (absent
tags read as 0). -/
def songScore (gs ns : ScoreMap) (s : Song) : Int :=
  (tagList s.spiritualNeeds).foldl (fun a n => a + lookupD ns n)
    ((tagList s.genres).foldl (fun a g => a + lookupD gs g) 0)

/-- `currentSong && song.title === currentSong.title`: the exclusion test of
the best-song loop (comparison by title). -/
def isCurrent (cur : Option Song) (s : Song) : Bool :=
  match cur with
  | some c => s.title == c.title
  | none => false

/-- The best-song loop over `matchingSongs` of the card variant: skip the
current song, otherwise adopt a candidate exactly when its total strictly
exceeds the running best (initial sentinel -1), so the first-encountered
candidate wins ties. -/
def bestSongOf (gs ns : ScoreMap) (cur : Option Song) (ms : List Song) : Option Song :=
  (ms.foldl
    (fun acc s =>
      if isCurrent cur s then acc
      else if songScore gs ns s > acc.2 then (some s, songScore gs ns s) else acc)
    ((none : Option Song), (-1 : Int))).1

/-- The pool `pickRandomSong` draws from: the input list with every song
sharing the current song's title removed (when a current song is supplied). -/
def filteredPool (songList : List Song) (cur : Option Song) : List Song :=
  match cur with
  | some c => songList.filter (fun s => s.title != c.title)
  | none => songList

/-- `pickRandomSong`: null on an empty filtered pool, otherwise the entry at
the random index. The parameter `r` stands for the random draw; the source
index `Math.floor(Math.random() * length)` always lies in `[0, length)`,
which `r % length` reproduces for an arbitrary `r`. -/
def pickRandomSong (songList : List Song) (cur : Option Song) (r : Nat) : Option Song :=
  let fs := filteredPool songList cur
  if fs.isEmpty then none
  else fs[r % fs.length]?

/-- `recommendSong` of the sliding-card variant: build the score maps, pick
the top genre (the later `if(!finalTopGenre)` also treats an empty-string
genre as absent), filter the matching songs, run the best-song loop excluding
the current song, and fall back to `pickRandomSong` where the source does. -/
def recommendSong (urlMatch : String → String → Bool) (behavior : BehaviorRecord)
    (songs : List Song) (currentPageGenres : List String) (cur : Option Song)
    (r : Nat) : Option Song :=
  let publishedSongs := publishedOf songs
  let ns := needScoresOf publishedSongs behavior.clicks
  let gs := genreScoresOf urlMatch publishedSongs behavior currentPageGenres
  match topGenre gs with
  | none => pickRandomSong publishedSongs cur r
  | some g =>
    if g = "" then pickRandomSong publishedSongs cur r
    else
      let ms := matchingSongsOf publishedSongs g
      if ms.isEmpty then pickRandomSong publishedSongs cur r
      else
        match bestSongOf gs ns cur ms with
        | some best => some best
        | none => pickRandomSong ms cur r

/-- Plain string equality as a URL matcher: the overlay variant's page
comparison `song.pageUrl === page`. -/
def eqUrl : String → String → Bool := fun u p => u == p

/-- `recommendSong` of the overlay variant: same scoring, no current-song
exclusion anywhere, and the fallbacks index the pool directly
(`pool[Math.floor(Math.random() * pool.length)]`, undefined — `none` — on an
empty pool). URL matching in its time-spent loop is plain equality. -/
def recommendSongBasic (behavior : BehaviorRecord) (songs : List Song)
    (currentPageGenres : List String) (r : Nat) : Option Song :=
  let publishedSongs := publishedOf songs
  let ns := needScoresOf publishedSongs behavior.clicks
  let gs := genreScoresOf eqUrl publishedSongs behavior currentPageGenres
  match topGenre gs with
  | none => publishedSongs[r % publishedSongs.length]?
  | some g =>
    if g = "" then publishedSongs[r % publishedSongs.length]?
    else
      let ms := matchingSongsOf publishedSongs g
      if ms.isEmpty then publishedSongs[r % publishedSongs.length]?
      else
        match bestSongOf gs ns none ms with
        | some best => some best
        | none => ms[r % ms.length]?

/-- `Object.values(m).reduce((a, b) => a + b, 0)`. -/
def sumValues (m : List (String × Int)) : Int :=
  (m.map (fun p => p.2)).foldl (fun a b => a + b) 0

/-- The gating of `triggerRecommendation` in the card variant: the scorer runs
only when at least 3 page visits and 2 song clicks have accumulated. The
5-second display delay and the DOM card are outside the model. -/
def triggerRecommendation (urlMatch : String → String → Bool)
    (behavior : BehaviorRecord) (songs : List Song) (currentPageGenres : List String)
    (cur : Option Song) (r : Nat) : Option Song :=
  if sumValues behavior.pagesVisited < 3 ∨ sumValues behavior.clicks < 2 then none
  else recommendSong urlMatch behavior songs currentPageGenres cur r

/-- `trackPageVisit`: `pagesVisited[page] = (pagesVisited[page] || 0) + 1`. -/
def trackPageVisit (b : BehaviorRecord) (page : String) : BehaviorRecord :=
  { b with pagesVisited := setVal b.pagesVisited page (lookupD b.pagesVisited page + 1) }

/-- `trackClick`: increment the stored count when it is truthy (present and
non-zero), otherwise set it to 1. -/
def trackClick (b : BehaviorRecord) (songTitle : String) : BehaviorRecord :=
  { b with clicks :=
      match lookupOpt b.clicks songTitle with
      | some v => if v = 0 then setVal b.clicks songTitle 1
                  else setVal b.clicks songTitle (v + 1)
      | none => setVal b.clicks songTitle 1 }

/-- `trackTimeSpent`: add the measured elapsed time
(`Math.floor((Date.now() - pageStartTime) / 1000)`, passed in as `elapsed`)
to the page's total. -/
def trackTimeSpent (b : BehaviorRecord) (page : String) (elapsed : Int) : BehaviorRecord :=
  { b with timeSpent := setVal b.timeSpent page (lookupD b.timeSpent page + elapsed) }

/-- The data-model invariant on a behavior record as the scorer consumes it:
click counts and dwell seconds are non-negative. -/
def WFBehavior (b : BehaviorRecord) : Prop :=
  (∀ e ∈ b.clicks, 0 ≤ e.2) ∧ (∀ e ∈ b.timeSpent, 0 ≤ e.2)

/-- The shared selection pattern of the top-genre and best-song loops: fold a
`(best, highest)` pair, adopting an element exactly when its value strictly
exceeds the running highest. -/
def selBest {α : Type} (f : α → Int) (l : List α) (acc : Option α × Int) :
    Option α × Int :=
  l.foldl (fun a x => if f x > a.2 then (some x, f x) else a) acc

/-- All values readable from a score map are non-negative. -/
def NonnegMap (m : ScoreMap) : Prop :=
  ∀ k, 0 ≤ lookupD m k

/-- Concrete catalog entries for evaluating the definitions. -/
def songA : Song := ⟨"Song A", "praise, worship", "joy", "/songs/a"⟩

def songB : Song := ⟨"Song B", "praise", "peace", "/songs/b"⟩

def songHope : Song := ⟨"Hope Song", "hope", "comfort", "/songs/a"⟩

def songDraft : Song := ⟨"Draft", "praise", "joy", ""⟩


/-- Reading through an update: `addScore` changes only the key it targets, by
exactly the added amount. -/
theorem lookupD_addScore (m : ScoreMap) (k k' : String) (v : Int) :
    lookupD (addScore m k v) k' = lookupD m k' + if k = k' then v else 0 := by
  induction m with
  | nil =>
    by_cases h : k = k' <;> simp [addScore, lookupD, h]
  | cons p rest ih =>
    obtain ⟨k₁, v₁⟩ := p
    by_cases h₁ : k₁ = k
    · subst h₁
      by_cases h₂ : k₁ = k' <;> simp [addScore, lookupD, h₂]
    · by_cases h₂ : k₁ = k'
      · subst h₂
        have : ¬k = k₁ := fun h => h₁ h.symm
        simp [addScore, lookupD, h₁, this]
      · simp [addScore, lookupD, h₁, h₂, ih]

/-- Reading through `setVal`: the targeted key reads the written value, every
other key is untouched. -/
theorem lookupD_setVal (m : ScoreMap) (k k' : String) (v : Int) :
    lookupD (setVal m k v) k' = if k = k' then v else lookupD m k' := by
  induction m with
  | nil =>
    by_cases h : k = k' <;> simp [setVal, lookupD, h]
  | cons p rest ih =>
    obtain ⟨k₁, v₁⟩ := p
    by_cases h₁ : k₁ = k
    · subst h₁
      by_cases h₂ : k₁ = k' <;> simp [setVal, lookupD, h₂]
    · by_cases h₂ : k₁ = k'
      · subst h₂
        have : ¬k = k₁ := fun h => h₁ h.symm
        simp [setVal, lookupD, h₁, this]
      · simp [setVal, lookupD, h₁, h₂, ih]

/-- `lookupD` is `lookupOpt` with the `|| 0` default. -/
theorem lookupD_eq_lookupOpt (m : ScoreMap) (k : String) :
    lookupD m k = (lookupOpt m k).getD 0 := by
  induction m with
  | nil => simp [lookupD, lookupOpt]
  | cons p rest ih =>
    by_cases h : p.1 = k <;> simp [lookupD, lookupOpt, h, ih]

/-- Folding `addScore` with a fixed amount over a tag list adds the amount
once per occurrence of the key in the list. -/
theorem lookupD_foldl_addScore (l : List String) (v : Int) (m : ScoreMap) (k : String) :
    lookupD (l.foldl (fun m' g => addScore m' g v) m) k
      = lookupD m k + (l.count k : Int) * v := by
  induction l generalizing m with
  | nil => simp
  | cons g gs ih =>
    rw [List.foldl_cons, ih, lookupD_addScore]
    by_cases h : g = k
    · subst h
      have hcount : (((g :: gs).count g : Nat) : Int) = ((gs.count g : Nat) : Int) + 1 := by
        rw [List.count_cons_self]
        push_cast
        ring
      rw [hcount, if_pos rfl]
      ring
    · rw [List.count_cons_of_ne (Ne.symm h)]
      simp [h]

/-- Folding an accumulating sum equals the initial value plus the list sum. -/
theorem foldl_add_eq {α : Type} (f : α → Int) (l : List α) (c : Int) :
    l.foldl (fun a x => a + f x) c = c + (l.map f).sum := by
  induction l generalizing c with
  | nil => simp
  | cons x xs ih =>
    rw [List.foldl_cons, ih]
    simp [add_assoc]

/-- The candidate total is the sum of the genre-score reads plus the sum of
the need-score reads. -/
theorem songScore_eq_sum (gs ns : ScoreMap) (s : Song) :
    songScore gs ns s
      = ((tagList s.genres).map (lookupD gs)).sum
        + ((tagList s.spiritualNeeds).map (lookupD ns)).sum := by
  unfold songScore
  rw [foldl_add_eq, foldl_add_eq]
  simp

/-- Unfolding one step of the selection fold. -/
theorem selBest_cons {α : Type} (f : α → Int) (x : α) (l : List α) (acc : Option α × Int) :
    selBest f (x :: l) acc = selBest f l (if f x > acc.2 then (some x, f x) else acc) := rfl

/-- Once a best element has been adopted, the selection fold never returns to
`none`. -/
theorem selBest_isSome {α : Type} (f : α → Int) (l : List α) (b : α) (m : Int) :
    ((selBest f l (some b, m)).1).isSome = true := by
  induction l generalizing b m with
  | nil => simp [selBest]
  | cons x xs ih =>
    rw [selBest_cons]
    by_cases h : f x > m
    · rw [if_pos h]
      exact ih x (f x)
    · rw [if_neg h]
      exact ih b m

/-- Selection from an adopted accumulator: the result is either the
accumulator itself, dominating the whole list, or a later element that
strictly beats the accumulator and everything before it and is not strictly
beaten by anything after it. -/
theorem selBest_some_acc {α : Type} (f : α → Int) (l : List α) (b b' : α)
    (h : (selBest f l (some b, f b)).1 = some b') :
    (b' = b ∧ ∀ x ∈ l, f x ≤ f b)
      ∨ ∃ l₁ l₂, l = l₁ ++ b' :: l₂ ∧ f b < f b'
          ∧ (∀ x ∈ l₁, f x < f b') ∧ (∀ x ∈ l₂, f x ≤ f b') := by
  induction l generalizing b with
  | nil =>
    left
    refine ⟨?_, by intro x hx; cases hx⟩
    have hb : some b = some b' := by simpa [selBest] using h
    exact (Option.some.inj hb).symm
  | cons x xs ih =>
    rw [selBest_cons] at h
    by_cases hx : f x > f b
    · rw [if_pos hx] at h
      rcases ih x h with ⟨rfl, hall⟩ | ⟨l₁, l₂, heq, hlt, hbefore, hafter⟩
      · right
        refine ⟨[], xs, rfl, hx, ?_, hall⟩
        intro y hy
        cases hy
      · right
        refine ⟨x :: l₁, l₂, by simp [heq], lt_trans hx hlt, ?_, hafter⟩
        intro y hy
        rcases List.mem_cons.mp hy with rfl | hy'
        · exact hlt
        · exact hbefore y hy'
    · rw [if_neg hx] at h
      rcases ih b h with ⟨rfl, hall⟩ | ⟨l₁, l₂, heq, hlt, hbefore, hafter⟩
      · left
        refine ⟨rfl, ?_⟩
        intro y hy
        rcases List.mem_cons.mp hy with rfl | hy'
        · exact not_lt.mp hx
        · exact hall y hy'
      · right
        refine ⟨x :: l₁, l₂, by simp [heq], hlt, ?_, hafter⟩
        intro y hy
        rcases List.mem_cons.mp hy with rfl | hy'
        · exact lt_of_le_of_lt (not_lt.mp hx) hlt
        · exact hbefore y hy'

/-- Selection from the initial `(null, -1)` accumulator: a returned element
splits the list into a strictly-beaten prefix and a not-strictly-better
suffix, and its value beats the -1 sentinel. -/
theorem selBest_some_spec {α : Type} (f : α → Int) (l : List α) (b : α)
    (h : (selBest f l ((none : Option α), (-1 : Int))).1 = some b) :
    ∃ l₁ l₂, l = l₁ ++ b :: l₂ ∧ -1 < f b
      ∧ (∀ x ∈ l₁, f x < f b) ∧ (∀ x ∈ l₂, f x ≤ f b) := by
  induction l with
  | nil => simp [selBest] at h
  | cons x xs ih =>
    rw [selBest_cons] at h
    by_cases hx : f x > (-1 : Int)
    · rw [if_pos hx] at h
      rcases selBest_some_acc f xs x b h with ⟨rfl, hall⟩ | ⟨l₁, l₂, heq, hlt, hbefore, hafter⟩
      · refine ⟨[], xs, rfl, hx, ?_, hall⟩
        intro y hy
        cases hy
      · refine ⟨x :: l₁, l₂, by simp [heq], lt_trans hx hlt, ?_, hafter⟩
        intro y hy
        rcases List.mem_cons.mp hy with rfl | hy'
        · exact hlt
        · exact hbefore y hy'
    · rw [if_neg hx] at h
      rcases ih h with ⟨l₁, l₂, heq, hpos, hbefore, hafter⟩
      refine ⟨x :: l₁, l₂, by simp [heq], hpos, ?_, hafter⟩
      intro y hy
      rcases List.mem_cons.mp hy with rfl | hy'
      · exact lt_of_le_of_lt (not_lt.mp hx) hpos
      · exact hbefore y hy'

/-- Selection from a `none` accumulator stays `none` exactly when no element
beats the sentinel. -/
theorem selBest_none_iff {α : Type} (f : α → Int) (l : List α) (m : Int) :
    (selBest f l ((none : Option α), m)).1 = none ↔ ∀ x ∈ l, f x ≤ m := by
  induction l generalizing m with
  | nil => simp [selBest]
  | cons x xs ih =>
    rw [selBest_cons]
    by_cases hx : f x > m
    · rw [if_pos hx]
      constructor
      · intro h
        have hs := selBest_isSome f xs x (f x)
        rw [h] at hs
        cases hs
      · intro h
        exact absurd (h x (List.mem_cons_self x xs)) (not_le.mpr hx)
    · rw [if_neg hx, ih]
      constructor
      · intro h y hy
        rcases List.mem_cons.mp hy with rfl | hy'
        · exact not_lt.mp hx
        · exact h y hy'
      · intro h y hy
        exact h y (List.mem_cons_of_mem x hy)

/-- The top-genre loop tracks the key of the pair the generic selection fold
tracks (auxiliary, generalized over the accumulator). -/
theorem topGenre_fold_eq (gs : ScoreMap) :
    ∀ (o : Option (String × Int)) (m : Int),
      gs.foldl (fun acc p => if p.2 > acc.2 then (some p.1, p.2) else acc)
          (o.map Prod.fst, m)
        = (((selBest (fun p : String × Int => p.2) gs (o, m)).1).map Prod.fst,
           (selBest (fun p : String × Int => p.2) gs (o, m)).2) := by
  induction gs with
  | nil => intro o m; simp [selBest]
  | cons p ps ih =>
    intro o m
    rw [List.foldl_cons, selBest_cons]
    by_cases h : p.2 > m
    · rw [if_pos h, if_pos h]
      have := ih (some p) p.2
      simpa using this
    · rw [if_neg h, if_neg h]
      exact ih o m

/-- The top-genre loop is the generic selection fold on the score component,
projected to the key. -/
theorem topGenre_eq_selBest (gs : ScoreMap) :
    topGenre gs
      = ((selBest (fun p : String × Int => p.2) gs
          ((none : Option (String × Int)), (-1 : Int))).1).map Prod.fst := by
  have h := topGenre_fold_eq gs none (-1)
  unfold topGenre
  rw [show (Option.map Prod.fst (none : Option (String × Int))) = none from rfl] at h
  rw [h]

/-- The best-song loop with its in-loop current-song exclusion equals the
generic selection fold over the non-excluded candidates (auxiliary,
generalized over the accumulator). -/
theorem bestSongOf_fold_eq (gs ns : ScoreMap) (cur : Option Song) (ms : List Song) :
    ∀ acc : Option Song × Int,
      ms.foldl
          (fun a s =>
            if isCurrent cur s then a
            else if songScore gs ns s > a.2 then (some s, songScore gs ns s) else a) acc
        = selBest (songScore gs ns) (ms.filter (fun s => !isCurrent cur s)) acc := by
  induction ms with
  | nil => intro acc; simp [selBest]
  | cons s ss ih =>
    intro acc
    rw [List.foldl_cons]
    by_cases h : isCurrent cur s
    · rw [if_pos h, List.filter_cons_of_neg (by simp [h])]
      exact ih acc
    · rw [if_neg h, List.filter_cons_of_pos (by simp [h]), selBest_cons]
      exact ih _

/-- `bestSongOf` through the generic selection fold. -/
theorem bestSongOf_eq_selBest (gs ns : ScoreMap) (cur : Option Song) (ms : List Song) :
    bestSongOf gs ns cur ms
      = (selBest (songScore gs ns) (ms.filter (fun s => !isCurrent cur s))
          ((none : Option Song), (-1 : Int))).1 := by
  unfold bestSongOf
  rw [bestSongOf_fold_eq]

/-- `addScore` with a non-negative amount preserves map non-negativity. -/
theorem nonnegMap_addScore {m : ScoreMap} {v : Int} (hm : NonnegMap m) (hv : 0 ≤ v)
    (k : String) : NonnegMap (addScore m k v) := by
  intro k'
  rw [lookupD_addScore]
  by_cases h : k = k'
  · rw [if_pos h]
    exact add_nonneg (hm k') hv
  · rw [if_neg h]
    simpa using hm k'

/-- Folding non-negative `addScore` amounts over a tag list preserves map
non-negativity. -/
theorem nonnegMap_foldl_addScore {m : ScoreMap} {v : Int} (hm : NonnegMap m) (hv : 0 ≤ v)
    (l : List String) : NonnegMap (l.foldl (fun m' g => addScore m' g v) m) := by
  induction l generalizing m with
  | nil => exact hm
  | cons g rest ih => exact ih (nonnegMap_addScore hm hv g)

/-- The clicks loop preserves non-negativity of both score maps when all
click counts are non-negative (auxiliary, generalized over the
accumulator). -/
theorem nonnegMap_foldl_clickStep (ps : List Song) (clicks : List (String × Int)) :
    ∀ acc : ScoreMap × ScoreMap, (∀ e ∈ clicks, 0 ≤ e.2) →
      NonnegMap acc.1 → NonnegMap acc.2 →
      NonnegMap (clicks.foldl (clickStep ps) acc).1
        ∧ NonnegMap (clicks.foldl (clickStep ps) acc).2 := by
  induction clicks with
  | nil => intro acc _ h1 h2; exact ⟨h1, h2⟩
  | cons e es ih =>
    intro acc hc h1 h2
    rw [List.foldl_cons]
    have he : 0 ≤ e.2 := hc e (List.mem_cons_self e es)
    have hes : ∀ x ∈ es, 0 ≤ x.2 := fun x hx => hc x (List.mem_cons_of_mem e hx)
    refine ih _ hes ?_ ?_
    · cases hfind : ps.find? (fun s => s.title == e.1) with
      | none => simpa [clickStep, hfind] using h1
      | some song =>
        simp only [clickStep, hfind]
        exact nonnegMap_foldl_addScore h1 (mul_nonneg he (by norm_num)) _
    · cases hfind : ps.find? (fun s => s.title == e.1) with
      | none => simpa [clickStep, hfind] using h2
      | some song =>
        simp only [clickStep, hfind]
        exact nonnegMap_foldl_addScore h2 he _

/-- The time-spent loop preserves genre-score non-negativity when all dwell
times are non-negative. -/
theorem nonnegMap_foldl_timeStep (urlMatch : String → String → Bool) (ps : List Song)
    (ts : List (String × Int)) :
    ∀ m : ScoreMap, (∀ e ∈ ts, 0 ≤ e.2) → NonnegMap m →
      NonnegMap (ts.foldl (timeStep urlMatch ps) m) := by
  induction ts with
  | nil => intro m _ hm; exact hm
  | cons e es ih =>
    intro m hts hm
    rw [List.foldl_cons]
    refine ih _ (fun x hx => hts x (List.mem_cons_of_mem e hx)) ?_
    unfold timeStep
    exact nonnegMap_foldl_addScore hm
      (Int.fdiv_nonneg (hts e (List.mem_cons_self e es)) (by norm_num)) _

/-- Under the behavior-record invariant every genre score is non-negative. -/
theorem nonnegMap_genreScores (urlMatch : String → String → Bool) (ps : List Song)
    (b : BehaviorRecord) (cpg : List String) (hb : WFBehavior b) :
    NonnegMap (genreScoresOf urlMatch ps b cpg) := by
  unfold genreScoresOf
  refine nonnegMap_foldl_addScore ?_ (by norm_num) cpg
  refine nonnegMap_foldl_timeStep urlMatch ps b.timeSpent _ hb.2 ?_
  exact (nonnegMap_foldl_clickStep ps b.clicks ([], []) hb.1
    (fun _ => le_refl 0) (fun _ => le_refl 0)).1

/-- Under the behavior-record invariant every need score is non-negative. -/
theorem nonnegMap_needScores (ps : List Song) (clicks : List (String × Int))
    (hc : ∀ e ∈ clicks, 0 ≤ e.2) : NonnegMap (needScoresOf ps clicks) :=
  (nonnegMap_foldl_clickStep ps clicks ([], []) hc
    (fun _ => le_refl 0) (fun _ => le_refl 0)).2

/-- With non-negative score maps every candidate total is non-negative. -/
theorem songScore_nonneg {gs ns : ScoreMap} (hgs : NonnegMap gs) (hns : NonnegMap ns)
    (s : Song) : 0 ≤ songScore gs ns s := by
  rw [songScore_eq_sum]
  refine add_nonneg (List.sum_nonneg ?_) (List.sum_nonneg ?_)
  · intro x hx
    rcases List.mem_map.mp hx with ⟨g, _, rfl⟩
    exact hgs g
  · intro x hx
    rcases List.mem_map.mp hx with ⟨n, _, rfl⟩
    exact hns n

/-- A whole dwell under sixty seconds floors to zero minutes. -/
theorem fdiv_sixty_eq_zero {a : Int} (h0 : 0 ≤ a) (h60 : a < 60) : Int.fdiv a 60 = 0 := by
  rw [Int.fdiv_eq_ediv _ (by norm_num : (0 : Int) ≤ 60)]
  exact Int.ediv_eq_zero_of_lt h0 h60

/-- A catalog with no published song filters to the empty pool. -/
theorem publishedOf_eq_nil {songs : List Song} (h : ∀ s ∈ songs, s.pageUrl = "") :
    publishedOf songs = [] := by
  unfold publishedOf
  rw [List.filter_eq_nil_iff]
  intro s hs
  simp [h s hs]

/-- Membership in the published pool. -/
theorem mem_publishedOf {songs : List Song} {s : Song} (h : s ∈ publishedOf songs) :
    s ∈ songs ∧ s.pageUrl ≠ "" := by
  have hf := List.mem_filter.mp h
  exact ⟨hf.1, by simpa using hf.2⟩

/-- Membership in the matching-songs pool. -/
theorem mem_matchingSongsOf {ps : List Song} {g : String} {s : Song}
    (h : s ∈ matchingSongsOf ps g) : s ∈ ps ∧ g ∈ tagList s.genres := by
  have hf := List.mem_filter.mp h
  refine ⟨hf.1, ?_⟩
  have hc := hf.2
  simpa [List.contains_eq_any_beq, List.any_eq_true] using hc

/-- The filtered pool is a subset of the input pool. -/
theorem filteredPool_subset {songList : List Song} {cur : Option Song} {s : Song}
    (h : s ∈ filteredPool songList cur) : s ∈ songList := by
  cases cur with
  | none => exact h
  | some c => exact (List.mem_filter.mp h).1

/-- A song surviving the filtered pool never carries the current title. -/
theorem filteredPool_title {songList : List Song} {c s : Song}
    (h : s ∈ filteredPool songList (some c)) : s.title ≠ c.title := by
  have hf := (List.mem_filter.mp h).2
  simpa using hf

/-- `pickRandomSong` returns nothing exactly when the filtered pool is
empty. -/
theorem pickRandomSong_eq_none_iff (songList : List Song) (cur : Option Song) (r : Nat) :
    pickRandomSong songList cur r = none ↔ filteredPool songList cur = [] := by
  unfold pickRandomSong
  by_cases h : (filteredPool songList cur).isEmpty
  · simp [h, List.isEmpty_iff.mp h]
  · have hne : filteredPool songList cur ≠ [] := by
      simpa [List.isEmpty_iff] using h
    have hlt : r % (filteredPool songList cur).length < (filteredPool songList cur).length :=
      Nat.mod_lt _ (List.length_pos.mpr hne)
    simp [h, List.getElem?_eq_getElem hlt, hne]

/-- A song returned by `pickRandomSong` comes from the filtered pool. -/
theorem pickRandomSong_mem {songList : List Song} {cur : Option Song} {r : Nat} {s : Song}
    (h : pickRandomSong songList cur r = some s) : s ∈ filteredPool songList cur := by
  unfold pickRandomSong at h
  by_cases he : (filteredPool songList cur).isEmpty
  · simp [he] at h
  · simp only [he, Bool.false_eq_true, if_false] at h
    exact List.getElem?_mem h

/-- Branch reduction: with no top genre the card scorer falls back to a random
published song. -/
theorem recommendSong_no_top (urlMatch : String → String → Bool) (b : BehaviorRecord)
    (songs : List Song) (cpg : List String) (cur : Option Song) (r : Nat)
    (hg : topGenre (genreScoresOf urlMatch (publishedOf songs) b cpg) = none) :
    recommendSong urlMatch b songs cpg cur r = pickRandomSong (publishedOf songs) cur r := by
  simp only [recommendSong, hg]

/-- Branch reduction: an empty-string top genre is falsy and the card scorer
falls back to a random published song. -/
theorem recommendSong_empty_top (urlMatch : String → String → Bool) (b : BehaviorRecord)
    (songs : List Song) (cpg : List String) (cur : Option Song) (r : Nat)
    (hg : topGenre (genreScoresOf urlMatch (publishedOf songs) b cpg) = some "") :
    recommendSong urlMatch b songs cpg cur r = pickRandomSong (publishedOf songs) cur r := by
  simp only [recommendSong, hg]
  rw [if_pos trivial]

/-- Branch reduction: a truthy top genre with no matching songs sends the card
scorer to the random fallback over the published pool. -/
theorem recommendSong_no_matching (urlMatch : String → String → Bool) (b : BehaviorRecord)
    (songs : List Song) (cpg : List String) (cur : Option Song) (r : Nat) (g : String)
    (hg : topGenre (genreScoresOf urlMatch (publishedOf songs) b cpg) = some g)
    (hne : ¬g = "") (hms : matchingSongsOf (publishedOf songs) g = []) :
    recommendSong urlMatch b songs cpg cur r = pickRandomSong (publishedOf songs) cur r := by
  simp only [recommendSong, hg]
  rw [if_neg hne, if_pos (by simp [List.isEmpty_iff, hms])]

/-- Branch reduction: a truthy top genre with matching songs sends the card
scorer through the best-song loop, with the matching-pool random fallback. -/
theorem recommendSong_matching (urlMatch : String → String → Bool) (b : BehaviorRecord)
    (songs : List Song) (cpg : List String) (cur : Option Song) (r : Nat) (g : String)
    (hg : topGenre (genreScoresOf urlMatch (publishedOf songs) b cpg) = some g)
    (hne : ¬g = "") (hms : ¬matchingSongsOf (publishedOf songs) g = []) :
    recommendSong urlMatch b songs cpg cur r
      = match bestSongOf (genreScoresOf urlMatch (publishedOf songs) b cpg)
            (needScoresOf (publishedOf songs) b.clicks) cur
            (matchingSongsOf (publishedOf songs) g) with
        | some best => some best
        | none => pickRandomSong (matchingSongsOf (publishedOf songs) g) cur r := by
  simp only [recommendSong, hg]
  rw [if_neg hne, if_neg (by simpa [List.isEmpty_iff] using hms)]

/-- Branch reduction for the overlay scorer: with no top genre it indexes the
published pool at the random index. -/
theorem recommendSongBasic_no_top (b : BehaviorRecord) (songs : List Song)
    (cpg : List String) (r : Nat)
    (hg : topGenre (genreScoresOf eqUrl (publishedOf songs) b cpg) = none) :
    recommendSongBasic b songs cpg r
      = (publishedOf songs)[r % (publishedOf songs).length]? := by
  simp only [recommendSongBasic, hg]

/-- Branch reduction for the overlay scorer: an empty-string top genre is
falsy and it indexes the published pool at the random index. -/
theorem recommendSongBasic_empty_top (b : BehaviorRecord) (songs : List Song)
    (cpg : List String) (r : Nat)
    (hg : topGenre (genreScoresOf eqUrl (publishedOf songs) b cpg) = some "") :
    recommendSongBasic b songs cpg r
      = (publishedOf songs)[r % (publishedOf songs).length]? := by
  simp only [recommendSongBasic, hg]
  rw [if_pos trivial]

/-- Branch reduction for the overlay scorer: a truthy top genre with no
matching songs indexes the published pool at the random index. -/
theorem recommendSongBasic_no_matching (b : BehaviorRecord) (songs : List Song)
    (cpg : List String) (r : Nat) (g : String)
    (hg : topGenre (genreScoresOf eqUrl (publishedOf songs) b cpg) = some g)
    (hne : ¬g = "") (hms : matchingSongsOf (publishedOf songs) g = []) :
    recommendSongBasic b songs cpg r
      = (publishedOf songs)[r % (publishedOf songs).length]? := by
  simp only [recommendSongBasic, hg]
  rw [if_neg hne, if_pos (by simp [List.isEmpty_iff, hms])]

/-- Branch reduction for the overlay scorer: a truthy top genre with matching
songs runs the best-song loop without exclusion, falling back to indexing the
matching pool. -/
theorem recommendSongBasic_matching (b : BehaviorRecord) (songs : List Song)
    (cpg : List String) (r : Nat) (g : String)
    (hg : topGenre (genreScoresOf eqUrl (publishedOf songs) b cpg) = some g)
    (hne : ¬g = "") (hms : ¬matchingSongsOf (publishedOf songs) g = []) :
    recommendSongBasic b songs cpg r
      = match bestSongOf (genreScoresOf eqUrl (publishedOf songs) b cpg)
            (needScoresOf (publishedOf songs) b.clicks) none
            (matchingSongsOf (publishedOf songs) g) with
        | some best => some best
        | none =>
            (matchingSongsOf (publishedOf songs) g)[r %
              (matchingSongsOf (publishedOf songs) g).length]? := by
  simp only [recommendSongBasic, hg]
  rw [if_neg hne, if_neg (by simpa [List.isEmpty_iff] using hms)]

/-- `pickRandomSong` on an empty pool is null. -/
theorem pickRandomSong_nil (cur : Option Song) (r : Nat) :
    pickRandomSong [] cur r = none := by
  cases cur <;> rfl

/-- With empty clicks, empty time-spent and empty current-page genres the
genre-score map stays empty. -/
theorem genreScoresOf_empty (urlMatch : String → String → Bool) (ps : List Song)
    (b : BehaviorRecord) (hc : b.clicks = []) (ht : b.timeSpent = []) :
    genreScoresOf urlMatch ps b [] = [] := by
  unfold genreScoresOf
  rw [hc, ht]
  rfl

/-- With no current song `pickRandomSong` indexes the pool directly. -/
theorem pickRandomSong_none_cur (songList : List Song) (r : Nat) (h : songList ≠ []) :
    pickRandomSong songList none r = songList[r % songList.length]? := by
  simp only [pickRandomSong]
  rw [show filteredPool songList none = songList from rfl]
  rw [if_neg (by simpa [List.isEmpty_iff] using h)]

/-- Claim C6: for every behavior record and current-page genre list, when no
catalog song is published (every song has an empty URL), both scorer variants
return null. -/
theorem claim_C6_no_published_returns_none (urlMatch : String → String → Bool)
    (b : BehaviorRecord) (songs : List Song) (cpg : List String) (cur : Option Song)
    (r : Nat) (h : ∀ s ∈ songs, s.pageUrl = "") :
    recommendSong urlMatch b songs cpg cur r = none
      ∧ recommendSongBasic b songs cpg r = none := by
  have hp : publishedOf songs = [] := publishedOf_eq_nil h
  constructor
  · cases hg : topGenre (genreScoresOf urlMatch (publishedOf songs) b cpg) with
    | none =>
      rw [recommendSong_no_top urlMatch b songs cpg cur r hg, hp, pickRandomSong_nil]
    | some g =>
      by_cases hge : g = ""
      · subst hge
        rw [recommendSong_empty_top urlMatch b songs cpg cur r hg, hp, pickRandomSong_nil]
      · have hms : matchingSongsOf (publishedOf songs) g = [] := by
          rw [hp]
          rfl
        rw [recommendSong_no_matching urlMatch b songs cpg cur r g hg hge hms, hp,
          pickRandomSong_nil]
  · cases hg : topGenre (genreScoresOf eqUrl (publishedOf songs) b cpg) with
    | none =>
      rw [recommendSongBasic_no_top b songs cpg r hg, hp]
      simp
    | some g =>
      by_cases hge : g = ""
      · subst hge
        rw [recommendSongBasic_empty_top b songs cpg r hg, hp]
        simp
      · have hms : matchingSongsOf (publishedOf songs) g = [] := by
          rw [hp]
          rfl
        rw [recommendSongBasic_no_matching b songs cpg r g hg hge hms, hp]
        simp

theorem claim_C6_witness :
    (∀ s ∈ [songDraft], s.pageUrl = "")
      ∧ (recommendSong eqUrl ⟨[], [], []⟩ [songDraft] ["joy"] none 0 = none
          ∧ recommendSongBasic ⟨[], [], []⟩ [songDraft] ["joy"] 0 = none) :=
  ⟨by decide,
   claim_C6_no_published_returns_none eqUrl ⟨[], [], []⟩ [songDraft] ["joy"] none 0 (by decide)⟩

/-- Claim C7: with empty clicks, empty time-spent and empty current-page
genres, and at least one published song, the overlay scorer — and the card
scorer when no current song is identified — return some published catalog
song through the uniform-random fallback; both are total functions, so no
exception is possible. -/
theorem claim_C7_empty_behavior_fallback (urlMatch : String → String → Bool)
    (b : BehaviorRecord) (songs : List Song) (cpg : List String) (r : Nat)
    (hc : b.clicks = []) (ht : b.timeSpent = []) (hcpg : cpg = [])
    (hp : publishedOf songs ≠ []) :
    (∃ s, recommendSongBasic b songs cpg r = some s ∧ s ∈ songs ∧ s.pageUrl ≠ "")
      ∧ (∃ s, recommendSong urlMatch b songs cpg none r = some s
          ∧ s ∈ songs ∧ s.pageUrl ≠ "") := by
  subst hcpg
  have hg0 : topGenre (genreScoresOf eqUrl (publishedOf songs) b []) = none := by
    rw [genreScoresOf_empty eqUrl (publishedOf songs) b hc ht]
    rfl
  have hgu : topGenre (genreScoresOf urlMatch (publishedOf songs) b []) = none := by
    rw [genreScoresOf_empty urlMatch (publishedOf songs) b hc ht]
    rfl
  have hlt : r % (publishedOf songs).length < (publishedOf songs).length :=
    Nat.mod_lt _ (List.length_pos.mpr hp)
  have hmem := mem_publishedOf (List.getElem_mem hlt)
  constructor
  · rw [recommendSongBasic_no_top b songs [] r hg0, List.getElem?_eq_getElem hlt]
    exact ⟨_, rfl, hmem.1, hmem.2⟩
  · rw [recommendSong_no_top urlMatch b songs [] none r hgu,
      pickRandomSong_none_cur _ r hp, List.getElem?_eq_getElem hlt]
    exact ⟨_, rfl, hmem.1, hmem.2⟩

theorem claim_C7_witness :
    publishedOf [songDraft, songA] ≠ []
      ∧ ((∃ s, recommendSongBasic ⟨[("/x", 3)], [], []⟩ [songDraft, songA] [] 0 = some s
            ∧ s ∈ [songDraft, songA] ∧ s.pageUrl ≠ "")
          ∧ (∃ s, recommendSong eqUrl ⟨[("/x", 3)], [], []⟩ [songDraft, songA] [] none 0 = some s
              ∧ s ∈ [songDraft, songA] ∧ s.pageUrl ≠ "")) :=
  ⟨by decide,
   claim_C7_empty_behavior_fallback eqUrl ⟨[("/x", 3)], [], []⟩ [songDraft, songA] [] 0
     rfl rfl rfl (by decide)⟩

/-- Claim C8: the gating of `triggerRecommendation` lets the scorer run
exactly when the summed page-visit counts reach 3 and the summed click counts
reach 2; below either threshold nothing is recommended. -/
theorem claim_C8_gating (urlMatch : String → String → Bool) (b : BehaviorRecord)
    (songs : List Song) (cpg : List String) (cur : Option Song) (r : Nat) :
    (3 ≤ sumValues b.pagesVisited → 2 ≤ sumValues b.clicks →
        triggerRecommendation urlMatch b songs cpg cur r
          = recommendSong urlMatch b songs cpg cur r)
      ∧ (sumValues b.pagesVisited < 3 ∨ sumValues b.clicks < 2 →
          triggerRecommendation urlMatch b songs cpg cur r = none) := by
  constructor
  · intro h1 h2
    unfold triggerRecommendation
    rw [if_neg ?_]
    push_neg
    exact ⟨h1, h2⟩
  · intro h
    unfold triggerRecommendation
    rw [if_pos h]

theorem claim_C8_witness :
    triggerRecommendation eqUrl ⟨[("/x", 3)], [("Song A", 2)], []⟩ [songA] [] none 0
        = recommendSong eqUrl ⟨[("/x", 3)], [("Song A", 2)], []⟩ [songA] [] none 0
      ∧ triggerRecommendation eqUrl ⟨[("/x", 1)], [], []⟩ [songA] [] none 0 = none :=
  ⟨(claim_C8_gating eqUrl ⟨[("/x", 3)], [("Song A", 2)], []⟩ [songA] [] none 0).1
      (by decide) (by decide),
   (claim_C8_gating eqUrl ⟨[("/x", 1)], [], []⟩ [songA] [] none 0).2 (by decide)⟩

/-- The effect of `trackClick` on the stored record: the clicked title is set
to 1 when its count was absent or zero (falsy) and incremented otherwise; the
other mappings are untouched. -/
theorem trackClick_eq (b : BehaviorRecord) (title : String) :
    (trackClick b title).clicks
      = setVal b.clicks title
          (if lookupD b.clicks title = 0 then 1 else lookupD b.clicks title + 1)
      ∧ (trackClick b title).pagesVisited = b.pagesVisited
      ∧ (trackClick b title).timeSpent = b.timeSpent := by
  rcases hv : lookupOpt b.clicks title with _ | v
  · have h0 : lookupD b.clicks title = 0 := by
      rw [lookupD_eq_lookupOpt, hv]
      rfl
    refine ⟨?_, ?_, ?_⟩ <;> simp [trackClick, hv, h0]
  · have h0 : lookupD b.clicks title = v := by
      rw [lookupD_eq_lookupOpt, hv]
      rfl
    by_cases hz : v = 0
    · subst hz
      refine ⟨?_, ?_, ?_⟩ <;> simp [trackClick, hv, h0]
    · refine ⟨?_, ?_, ?_⟩ <;> simp [trackClick, hv, h0, hz]

/-- Claim C9: each tracking operation (`trackPageVisit`, `trackClick`,
`trackTimeSpent`) leaves every key of each of the three mappings at least as
large as before and keeps non-negative counts non-negative — for
`trackTimeSpent` under the precondition that the measured elapsed time is
non-negative; the mappings an operation does not update are untouched. -/
theorem claim_C9_tracking_monotone (b : BehaviorRecord) (page title tpage : String)
    (elapsed : Int) (he : 0 ≤ elapsed) :
    ((∀ k, lookupD b.pagesVisited k ≤ lookupD (trackPageVisit b page).pagesVisited k
        ∧ (0 ≤ lookupD b.pagesVisited k → 0 ≤ lookupD (trackPageVisit b page).pagesVisited k))
      ∧ (trackPageVisit b page).clicks = b.clicks
      ∧ (trackPageVisit b page).timeSpent = b.timeSpent)
    ∧ ((∀ k, lookupD b.clicks k ≤ lookupD (trackClick b title).clicks k
        ∧ (0 ≤ lookupD b.clicks k → 0 ≤ lookupD (trackClick b title).clicks k))
      ∧ (trackClick b title).pagesVisited = b.pagesVisited
      ∧ (trackClick b title).timeSpent = b.timeSpent)
    ∧ ((∀ k, lookupD b.timeSpent k ≤ lookupD (trackTimeSpent b tpage elapsed).timeSpent k
        ∧ (0 ≤ lookupD b.timeSpent k
            → 0 ≤ lookupD (trackTimeSpent b tpage elapsed).timeSpent k))
      ∧ (trackTimeSpent b tpage elapsed).pagesVisited = b.pagesVisited
      ∧ (trackTimeSpent b tpage elapsed).clicks = b.clicks) := by
  refine ⟨⟨?_, rfl, rfl⟩, ⟨?_, (trackClick_eq b title).2.1, (trackClick_eq b title).2.2⟩,
    ⟨?_, rfl, rfl⟩⟩
  · intro k
    simp only [trackPageVisit]
    rw [lookupD_setVal]
    by_cases h : page = k
    · subst h
      rw [if_pos rfl]
      omega
    · rw [if_neg h]
      omega
  · intro k
    rw [(trackClick_eq b title).1, lookupD_setVal]
    by_cases h : title = k
    · subst h
      rw [if_pos rfl]
      by_cases hz : lookupD b.clicks title = 0
      · rw [if_pos hz]
        omega
      · rw [if_neg hz]
        omega
    · rw [if_neg h]
      omega
  · intro k
    simp only [trackTimeSpent]
    rw [lookupD_setVal]
    by_cases h : tpage = k
    · subst h
      rw [if_pos rfl]
      omega
    · rw [if_neg h]
      omega

theorem claim_C9_witness :
    (0 : Int) ≤ 7
      ∧ lookupD (⟨[("/x", 1)], [("t", 1)], [("/x", 30)]⟩ : BehaviorRecord).timeSpent "/x"
          ≤ lookupD (trackTimeSpent ⟨[("/x", 1)], [("t", 1)], [("/x", 30)]⟩ "/x" 7).timeSpent "/x"
      ∧ lookupD (⟨[("/x", 1)], [("t", 1)], [("/x", 30)]⟩ : BehaviorRecord).clicks "t"
          ≤ lookupD (trackClick ⟨[("/x", 1)], [("t", 1)], [("/x", 30)]⟩ "t").clicks "t" :=
  ⟨by decide,
   ((claim_C9_tracking_monotone ⟨[("/x", 1)], [("t", 1)], [("/x", 30)]⟩ "/x" "t" "/x" 7
      (by decide)).2.2.1 "/x").1,
   ((claim_C9_tracking_monotone ⟨[("/x", 1)], [("t", 1)], [("/x", 30)]⟩ "/x" "t" "/x" 7
      (by decide)).2.1.1 "t").1⟩

/-- Claim C5 (counterexample): a pool consisting solely of the current song
makes the fallback return null — the current-song exclusion is applied even
when it empties the pool, contrary to the claimed behavior. -/
theorem claim_C5_counterexample :
    pickRandomSong [songA] (some songA) 0 = none := by decide

/-- Claim C5 (amended): `pickRandomSong` always removes every song sharing
the current song's title from the pool when a current song is supplied; it
returns null exactly when the pool after this exclusion is empty (in
particular a pool consisting solely of the current song yields null), and
otherwise it returns a pool member that is not the current song. -/
theorem claim_C5_fallback_pool (songList : List Song) (cur : Option Song) (r : Nat) :
    (pickRandomSong songList cur r = none ↔ filteredPool songList cur = [])
      ∧ (∀ s, pickRandomSong songList cur r = some s →
          s ∈ songList ∧ ∀ c, cur = some c → s.title ≠ c.title) := by
  refine ⟨pickRandomSong_eq_none_iff songList cur r, ?_⟩
  intro s hs
  have hm := pickRandomSong_mem hs
  refine ⟨filteredPool_subset hm, ?_⟩
  intro c hc
  subst hc
  exact filteredPool_title hm

theorem claim_C5_witness :
    pickRandomSong [songA, songB] (some songA) 0 = some songB
      ∧ (pickRandomSong [songA, songB] (some songA) 0 = none
          ↔ filteredPool [songA, songB] (some songA) = []) :=
  ⟨by decide, (claim_C5_fallback_pool [songA, songB] (some songA) 0).1⟩

/-- Claim C4: one time-spent entry `(page, seconds)` adds exactly
`floor(seconds / 60)` — whole minutes, truncated — to each genre-tag
occurrence of every published song whose URL matches the page (with
multiplicity) and nothing to any other tag; a dwell under sixty seconds
contributes zero everywhere. -/
theorem claim_C4_time_minutes (urlMatch : String → String → Bool) (ps : List Song)
    (gs : ScoreMap) (page : String) (secs : Int) :
    (∀ tag, lookupD (timeStep urlMatch ps gs (page, secs)) tag
        = lookupD gs tag
          + ((pageGenresOf urlMatch ps page).count tag : Int) * Int.fdiv secs 60)
      ∧ (0 ≤ secs → secs < 60 →
          ∀ tag, lookupD (timeStep urlMatch ps gs (page, secs)) tag = lookupD gs tag) := by
  have h1 : ∀ tag, lookupD (timeStep urlMatch ps gs (page, secs)) tag
      = lookupD gs tag
        + ((pageGenresOf urlMatch ps page).count tag : Int) * Int.fdiv secs 60 :=
    fun tag => lookupD_foldl_addScore _ _ gs tag
  refine ⟨h1, ?_⟩
  intro h0 h60 tag
  rw [h1 tag, fdiv_sixty_eq_zero h0 h60]
  ring

theorem claim_C4_witness :
    lookupD (timeStep eqUrl [songHope] [] ("/songs/a", 125)) "hope"
        = lookupD ([] : ScoreMap) "hope"
          + ((pageGenresOf eqUrl [songHope] "/songs/a").count "hope" : Int) * Int.fdiv 125 60
      ∧ lookupD (timeStep eqUrl [songHope] [] ("/songs/a", 125)) "hope" = 2
      ∧ lookupD (timeStep eqUrl [songHope] [] ("/songs/a", 30)) "hope"
          = lookupD ([] : ScoreMap) "hope" :=
  ⟨(claim_C4_time_minutes eqUrl [songHope] [] "/songs/a" 125).1 "hope",
   by decide,
   (claim_C4_time_minutes eqUrl [songHope] [] "/songs/a" 30).2 (by decide) (by decide) "hope"⟩

/-- Claim C3: the clicks pass processes each `(title, count)` entry in order;
an entry resolving to a published song by exact title adds `count * 2` to
each of the song's genre-tag occurrences and `count` to each of its need-tag
occurrences (with multiplicity), and an entry matching no published song
changes nothing. -/
theorem claim_C3_click_scoring (ps : List Song) (clicks : List (String × Int))
    (acc : ScoreMap × ScoreMap) (title : String) (count : Int) :
    clickScores ps clicks = clicks.foldl (clickStep ps) ([], [])
      ∧ (ps.find? (fun s => s.title == title) = none
          → clickStep ps acc (title, count) = acc)
      ∧ (∀ song, ps.find? (fun s => s.title == title) = some song →
          (∀ tag, lookupD (clickStep ps acc (title, count)).1 tag
              = lookupD acc.1 tag + ((tagList song.genres).count tag : Int) * (count * 2))
            ∧ (∀ tag, lookupD (clickStep ps acc (title, count)).2 tag
                = lookupD acc.2 tag
                  + ((tagList song.spiritualNeeds).count tag : Int) * count)) := by
  refine ⟨rfl, ?_, ?_⟩
  · intro h
    simp only [clickStep, h]
  · intro song h
    simp only [clickStep, h]
    constructor
    · intro tag
      exact lookupD_foldl_addScore _ _ acc.1 tag
    · intro tag
      exact lookupD_foldl_addScore _ _ acc.2 tag

theorem claim_C3_witness :
    List.find? (fun s => s.title == "Song A") [songA] = some songA
      ∧ lookupD (clickStep [songA] ([], []) ("Song A", 3)).1 "praise"
          = lookupD ([] : ScoreMap) "praise"
            + ((tagList songA.genres).count "praise" : Int) * (3 * 2)
      ∧ lookupD (clickScores [songA] [("Song A", 3)]).1 "praise" = 6
      ∧ lookupD (clickScores [songA] [("Song A", 3)]).1 "worship" = 6
      ∧ lookupD (clickScores [songA] [("Song A", 3)]).2 "joy" = 3 :=
  ⟨by decide,
   ((claim_C3_click_scoring [songA] [("Song A", 3)] ([], []) "Song A" 3).2.2 songA
      (by decide)).1 "praise",
   by decide, by decide, by decide⟩

/-- Claim C10 (implicit): under the behavior-record invariant every candidate
total is non-negative and therefore beats the -1 sentinel, so whenever some
matching song is not the current song the best-song loop returns a best song;
the matching-pool random fallback is reached only when every matching song is
the current song. -/
theorem claim_C10_best_loop_nonneg (urlMatch : String → String → Bool)
    (b : BehaviorRecord) (songs : List Song) (cpg : List String) (cur : Option Song)
    (ms : List Song) (hwf : WFBehavior b) :
    (∀ s, 0 ≤ songScore (genreScoresOf urlMatch (publishedOf songs) b cpg)
        (needScoresOf (publishedOf songs) b.clicks) s)
      ∧ ((∃ s ∈ ms, isCurrent cur s = false) →
          ∃ bs, bestSongOf (genreScoresOf urlMatch (publishedOf songs) b cpg)
              (needScoresOf (publishedOf songs) b.clicks) cur ms = some bs)
      ∧ (bestSongOf (genreScoresOf urlMatch (publishedOf songs) b cpg)
            (needScoresOf (publishedOf songs) b.clicks) cur ms = none →
          ∀ s ∈ ms, isCurrent cur s = true) := by
  have hgs := nonnegMap_genreScores urlMatch (publishedOf songs) b cpg hwf
  have hns := nonnegMap_needScores (publishedOf songs) b.clicks hwf.1
  have hsc : ∀ s, 0 ≤ songScore (genreScoresOf urlMatch (publishedOf songs) b cpg)
      (needScoresOf (publishedOf songs) b.clicks) s :=
    fun s => songScore_nonneg hgs hns s
  refine ⟨hsc, ?_, ?_⟩
  · rintro ⟨s, hsm, hsnot⟩
    rw [bestSongOf_eq_selBest]
    cases hbs : (selBest (songScore (genreScoresOf urlMatch (publishedOf songs) b cpg)
        (needScoresOf (publishedOf songs) b.clicks))
        (ms.filter (fun x => !isCurrent cur x)) ((none : Option Song), (-1 : Int))).1 with
    | some bs => exact ⟨bs, rfl⟩
    | none =>
      exfalso
      have hall := (selBest_none_iff _ _ _).mp hbs
      have hmem : s ∈ ms.filter (fun x => !isCurrent cur x) :=
        List.mem_filter.mpr ⟨hsm, by simp [hsnot]⟩
      have h1 := hall s hmem
      have h2 := hsc s
      linarith
  · intro hnone s hs
    rw [bestSongOf_eq_selBest] at hnone
    have hall := (selBest_none_iff _ _ _).mp hnone
    by_contra hcur
    have hfalse : isCurrent cur s = false := by
      revert hcur
      cases isCurrent cur s <;> simp
    have hmem : s ∈ ms.filter (fun x => !isCurrent cur x) :=
      List.mem_filter.mpr ⟨hs, by simp [hfalse]⟩
    have h1 := hall s hmem
    have h2 := hsc s
    linarith

theorem claim_C10_witness :
    WFBehavior ⟨[], [], []⟩
      ∧ ∃ bs, bestSongOf (genreScoresOf eqUrl (publishedOf [songA, songB]) ⟨[], [], []⟩
            ["praise"])
          (needScoresOf (publishedOf [songA, songB])
            (⟨[], [], []⟩ : BehaviorRecord).clicks) (some songA) [songB] = some bs :=
  ⟨⟨by simp, by simp⟩,
   (claim_C10_best_loop_nonneg eqUrl ⟨[], [], []⟩ [songA, songB] ["praise"] (some songA)
      [songB] ⟨by simp, by simp⟩).2.1 ⟨songB, by simp, by decide⟩⟩

/-- Claim C2: (i) a genre selected by the top-genre loop sits in the built
score map with a score beating the -1 sentinel, strictly above every earlier
entry and not strictly below any later entry — the strictly highest score
with first-encountered tie-break in insertion order; (ii) a recommendation
produced through the matching-songs path carries the top genre among its
genre tags; (iii) with an empty genre-score map the scorer skips straight to
the random fallback over the published pool. -/
theorem claim_C2_top_genre (urlMatch : String → String → Bool) (b : BehaviorRecord)
    (songs : List Song) (cpg : List String) (cur : Option Song) (r : Nat) :
    (∀ g, topGenre (genreScoresOf urlMatch (publishedOf songs) b cpg) = some g →
        ∃ l₁ v l₂, genreScoresOf urlMatch (publishedOf songs) b cpg = l₁ ++ (g, v) :: l₂
          ∧ (-1 : Int) < v ∧ (∀ p ∈ l₁, p.2 < v) ∧ (∀ p ∈ l₂, p.2 ≤ v))
      ∧ (∀ g s, topGenre (genreScoresOf urlMatch (publishedOf songs) b cpg) = some g →
          g ≠ "" → matchingSongsOf (publishedOf songs) g ≠ [] →
          recommendSong urlMatch b songs cpg cur r = some s → g ∈ tagList s.genres)
      ∧ (genreScoresOf urlMatch (publishedOf songs) b cpg = [] →
          recommendSong urlMatch b songs cpg cur r
            = pickRandomSong (publishedOf songs) cur r) := by
  refine ⟨?_, ?_, ?_⟩
  · intro g hg
    rw [topGenre_eq_selBest] at hg
    rcases Option.map_eq_some'.mp hg with ⟨p, hp, hpg⟩
    obtain ⟨p1, p2⟩ := p
    rcases selBest_some_spec _ _ _ hp with ⟨l₁, l₂, heq, hv, hbefore, hafter⟩
    cases hpg
    exact ⟨l₁, p2, l₂, heq, hv, hbefore, hafter⟩
  · intro g s hg hne hms hres
    rw [recommendSong_matching urlMatch b songs cpg cur r g hg hne hms] at hres
    cases hbs : bestSongOf (genreScoresOf urlMatch (publishedOf songs) b cpg)
        (needScoresOf (publishedOf songs) b.clicks) cur
        (matchingSongsOf (publishedOf songs) g) with
    | some best =>
      rw [hbs] at hres
      simp only [] at hres
      have hbest : best = s := Option.some.inj hres
      subst hbest
      have h1 := hbs
      rw [bestSongOf_eq_selBest] at h1
      rcases selBest_some_spec _ _ _ h1 with ⟨l₁, l₂, heq, _, _, _⟩
      have hmemf : best ∈ (matchingSongsOf (publishedOf songs) g).filter
          (fun x => !isCurrent cur x) := by
        rw [heq]
        exact List.mem_append_right l₁ (List.mem_cons_self best l₂)
      exact (mem_matchingSongsOf (List.mem_filter.mp hmemf).1).2
    | none =>
      rw [hbs] at hres
      simp only [] at hres
      have hmem := pickRandomSong_mem hres
      exact (mem_matchingSongsOf (filteredPool_subset hmem)).2
  · intro hempty
    refine recommendSong_no_top urlMatch b songs cpg cur r ?_
    rw [hempty]
    rfl

theorem claim_C2_witness :
    recommendSong eqUrl ⟨[], [], []⟩ [songA] [] none 0
        = pickRandomSong (publishedOf [songA]) none 0
      ∧ ∃ l₁ v l₂,
          genreScoresOf eqUrl (publishedOf [songA]) ⟨[], [], []⟩ ["praise", "worship"]
            = l₁ ++ ("praise", v) :: l₂
          ∧ (-1 : Int) < v ∧ (∀ p ∈ l₁, p.2 < v) ∧ (∀ p ∈ l₂, p.2 ≤ v) :=
  ⟨(claim_C2_top_genre eqUrl ⟨[], [], []⟩ [songA] [] none 0).2.2 rfl,
   (claim_C2_top_genre eqUrl ⟨[], [], []⟩ [songA] ["praise", "worship"] none 0).1 "praise"
     (by decide)⟩

/-- Claim C1: with a well-formed behavior record, a truthy top genre, and at
least one matching song surviving the current-song exclusion, every
candidate's total is the sum of its genre-score reads plus its need-score
reads (absent tags reading 0), and the card scorer returns the candidate with
the strictly highest total, the first-encountered candidate winning ties: the
returned song splits the candidate list into a strictly-beaten prefix and a
not-strictly-better suffix. -/
theorem claim_C1_best_candidate (urlMatch : String → String → Bool) (b : BehaviorRecord)
    (songs : List Song) (cpg : List String) (cur : Option Song) (r : Nat) (g : String)
    (hwf : WFBehavior b)
    (hg : topGenre (genreScoresOf urlMatch (publishedOf songs) b cpg) = some g)
    (hne : g ≠ "")
    (hcand : (matchingSongsOf (publishedOf songs) g).filter
        (fun s => !isCurrent cur s) ≠ []) :
    (∀ s, songScore (genreScoresOf urlMatch (publishedOf songs) b cpg)
        (needScoresOf (publishedOf songs) b.clicks) s
      = ((tagList s.genres).map
          (lookupD (genreScoresOf urlMatch (publishedOf songs) b cpg))).sum
        + ((tagList s.spiritualNeeds).map
            (lookupD (needScoresOf (publishedOf songs) b.clicks))).sum)
    ∧ ∃ best l₁ l₂,
        recommendSong urlMatch b songs cpg cur r = some best
        ∧ (matchingSongsOf (publishedOf songs) g).filter (fun s => !isCurrent cur s)
            = l₁ ++ best :: l₂
        ∧ (∀ s ∈ l₁,
            songScore (genreScoresOf urlMatch (publishedOf songs) b cpg)
                (needScoresOf (publishedOf songs) b.clicks) s
              < songScore (genreScoresOf urlMatch (publishedOf songs) b cpg)
                  (needScoresOf (publishedOf songs) b.clicks) best)
        ∧ (∀ s ∈ l₁ ++ best :: l₂,
            songScore (genreScoresOf urlMatch (publishedOf songs) b cpg)
                (needScoresOf (publishedOf songs) b.clicks) s
              ≤ songScore (genreScoresOf urlMatch (publishedOf songs) b cpg)
                  (needScoresOf (publishedOf songs) b.clicks) best) := by
  have hgsn := nonnegMap_genreScores urlMatch (publishedOf songs) b cpg hwf
  have hnsn := nonnegMap_needScores (publishedOf songs) b.clicks hwf.1
  refine ⟨fun s => songScore_eq_sum _ _ s, ?_⟩
  have hms : matchingSongsOf (publishedOf songs) g ≠ [] := by
    intro h0
    apply hcand
    rw [h0]
    rfl
  cases hbs : bestSongOf (genreScoresOf urlMatch (publishedOf songs) b cpg)
      (needScoresOf (publishedOf songs) b.clicks) cur
      (matchingSongsOf (publishedOf songs) g) with
  | none =>
    exfalso
    rw [bestSongOf_eq_selBest] at hbs
    have hall := (selBest_none_iff _ _ _).mp hbs
    rcases List.exists_mem_of_ne_nil _ hcand with ⟨s, hsm⟩
    have h1 := hall s hsm
    have h2 := songScore_nonneg hgsn hnsn s
    linarith
  | some best =>
    have hres : recommendSong urlMatch b songs cpg cur r = some best := by
      rw [recommendSong_matching urlMatch b songs cpg cur r g hg hne hms, hbs]
    have h1 := hbs
    rw [bestSongOf_eq_selBest] at h1
    rcases selBest_some_spec _ _ _ h1 with ⟨l₁, l₂, heq, _, hbefore, hafter⟩
    refine ⟨best, l₁, l₂, hres, heq, hbefore, ?_⟩
    intro s hs
    rcases List.mem_append.mp hs with hs1 | hs2
    · exact le_of_lt (hbefore s hs1)
    · rcases List.mem_cons.mp hs2 with rfl | hs3
      · exact le_refl _
      · exact hafter s hs3

theorem claim_C1_witness :
    WFBehavior ⟨[], [("Song A", 3)], []⟩
      ∧ topGenre (genreScoresOf eqUrl (publishedOf [songA, songB])
          ⟨[], [("Song A", 3)], []⟩ []) = some "praise"
      ∧ ("praise" : String) ≠ ""
      ∧ (matchingSongsOf (publishedOf [songA, songB]) "praise").filter
          (fun s => !isCurrent (some songB) s) ≠ []
      ∧ ∃ best l₁ l₂,
          recommendSong eqUrl ⟨[], [("Song A", 3)], []⟩ [songA, songB] [] (some songB) 0
              = some best
          ∧ (matchingSongsOf (publishedOf [songA, songB]) "praise").filter
              (fun s => !isCurrent (some songB) s) = l₁ ++ best :: l₂
          ∧ (∀ s ∈ l₁,
              songScore (genreScoresOf eqUrl (publishedOf [songA, songB])
                  ⟨[], [("Song A", 3)], []⟩ [])
                  (needScoresOf (publishedOf [songA, songB]) [("Song A", 3)]) s
                < songScore (genreScoresOf eqUrl (publishedOf [songA, songB])
                    ⟨[], [("Song A", 3)], []⟩ [])
                    (needScoresOf (publishedOf [songA, songB]) [("Song A", 3)]) best)
          ∧ (∀ s ∈ l₁ ++ best :: l₂,
              songScore (genreScoresOf eqUrl (publishedOf [songA, songB])
                  ⟨[], [("Song A", 3)], []⟩ [])
                  (needScoresOf (publishedOf [songA, songB]) [("Song A", 3)]) s
                ≤ songScore (genreScoresOf eqUrl (publishedOf [songA, songB])
                    ⟨[], [("Song A", 3)], []⟩ [])
                    (needScoresOf (publishedOf [songA, songB]) [("Song A", 3)]) best) :=
  ⟨⟨by decide, by simp⟩, by decide, by decide, by decide,
   (claim_C1_best_candidate eqUrl ⟨[], [("Song A", 3)], []⟩ [songA, songB] [] (some songB)
      0 "praise" ⟨by decide, by simp⟩ (by decide) (by decide) (by decide)).2⟩
